import Mathlib

/-
Verification of the ChatRover context-retrieval and conversation-window
pipeline (src/chat_rover.py) against its design specification.

The tokenizer (tiktoken) and the LLM / embedding / vector-search providers
are external collaborators; they are modelled abstractly as function
parameters, with their documented contracts stated as hypotheses where a
claim depends on them.  Everything else is translated directly from
src/chat_rover.py.
-/

/-- Abstract model of a tiktoken `Encoding`: `encode` maps text to a token
sequence, `decode` maps a token sequence back to text.  Used by
`ChatRover.trim` and `ChatRover.token_count`. -/
structure Encoding where
  encode : String → List Nat
  decode : List Nat → String

/-- Source: `ChatRover.token_count` — `len(self.encoding.encode(text))`. -/
def token_count (enc : Encoding) (text : String) : Nat :=
  (enc.encode text).length

/-- Source: `ChatRover.trim` — encode the text; if it has more than
`token_limit` tokens, decode only the first `token_limit` tokens. -/
def trim (enc : Encoding) (text : String) (token_limit : Nat) : String :=
  let tokens := enc.encode text
  if token_limit < tokens.length then enc.decode (tokens.take token_limit)
  else text

/-- Source: `self.max_model_tokens = 16000` in `ChatRover.__init__`. -/
def max_model_tokens : Nat := 16000

/-- Source: `self.response_token_limit = self.max_model_tokens // 3`. -/
def response_token_limit : Nat := max_model_tokens / 3

/-- Source: `self.files_to_scrape = 2`. -/
def files_to_scrape : Nat := 2

/-- Source: `self.readme_top_k = 5`. -/
def readme_top_k : Nat := 5

/-- Source: `self.file_top_k = 10`. -/
def file_top_k : Nat := 10

/-- One entry of `self.conversation_history`:
the dict constructed in `update_history`. -/
structure Message where
  role : String
  content : String
deriving DecidableEq, Repr

/-- The mutable window state of a `ChatRover` session:
`self.conversation_history` and `self.conversation_tokens`.
Token totals are Python ints, modelled as `Int`. -/
structure RoverState where
  history : List Message
  tokens : Int
deriving DecidableEq, Repr

/-- Sum of per-message token counts of a message list (the from-scratch
recomputation the incrementally maintained `conversation_tokens` is
supposed to agree with). -/
def sumTokens (enc : Encoding) : List Message → Int
  | [] => 0
  | m :: rest => (token_count enc m.content : Int) + sumTokens enc rest

/-- Source: the `while` loop of `ChatRover.update_history` —
`while self.conversation_tokens > self.max_model_tokens and
self.conversation_history: removed_entry = self.conversation_history.pop(0);
self.conversation_tokens -= self.token_count(removed_entry['content'])`. -/
def enforce_budget (enc : Encoding) (maxTokens : Int) :
    List Message → Int → List Message × Int
  | [], t => ([], t)
  | m :: rest, t =>
    if maxTokens < t then
      enforce_budget enc maxTokens rest (t - (token_count enc m.content : Int))
    else (m :: rest, t)

/-- Fuel-bounded version of the eviction loop: runs at most `fuel`
iterations of the `while` body, then stops unconditionally.  Used to state
that the loop terminates within `len(messages)` iterations. -/
def enforce_budget_fuel (enc : Encoding) (maxTokens : Int) :
    Nat → List Message → Int → List Message × Int
  | 0, h, t => (h, t)
  | _ + 1, [], t => ([], t)
  | fuel + 1, m :: rest, t =>
    if maxTokens < t then
      enforce_budget_fuel enc maxTokens fuel rest
        (t - (token_count enc m.content : Int))
    else (m :: rest, t)

/-- Source: `ChatRover.update_history` — append the new message, add its
token count to the running total, then run the eviction loop. -/
def update_history (enc : Encoding) (maxTokens : Int) (st : RoverState)
    (role content : String) : RoverState :=
  let history := st.history ++ [⟨role, content⟩]
  let tokens := st.tokens + (token_count enc content : Int)
  let res := enforce_budget enc maxTokens history tokens
  ⟨res.1, res.2⟩

/-- Source: `ChatRover.code_summary` — fetch raw file content from the
scraper (`get_file_raw`); on a truthy result trim it to
`max_model_tokens` and invoke the LLM chain once; otherwise return the
literal `"Code not found."`.  The second component counts LLM completion
calls issued; the LLM chain itself is the abstract `llm`. -/
def code_summary (enc : Encoding) (llm : String → String → String)
    (get_file_raw : String → Option String)
    (file_path query : String) : String × Nat :=
  match get_file_raw file_path with
  | some code =>
    if code = "" then ("Code not found.", 0)
    else (llm (trim enc code max_model_tokens) query, 1)
  | none => ("Code not found.", 0)

/-- Source: the `while i < len(file_query) and i < self.files_to_scrape`
loop of `ChatRover.retrieve_context`, accumulating
`"File: " + path + "\n" + "Summary: " + summary + "\n"` for the first
`files_to_scrape` file hits in ranking order. -/
def content_summaries (enc : Encoding) (llm : String → String → String)
    (get_file_raw : String → Option String)
    (query : String) (file_query : List String) : String :=
  (file_query.take files_to_scrape).foldl
    (fun acc file_path =>
      acc ++ "File: " ++ file_path ++ "\n" ++ "Summary: " ++
        (code_summary enc llm get_file_raw file_path query).1 ++ "\n")
    ""

/-- Source: the `role_prompt` f-string of `ChatRover.retrieve_context`,
as a function of its interpolated parts. -/
def role_prompt_template (repo readme_response file_response
    content_response query : String) : String :=
  "\n            As \x27RepoRover\x27, you are a specialized AI expert on the \x27"
    ++ repo ++
    "\x27 repository. \n            Your expertise includes detailed knowledge of the repository\x27s structure, \n            critical portions of the README, and summaries of key files based on user queries. \n            You do not have to use the summaries of files if they are not relevant. \n            If they are relevant, feel free to copy them verbatum or you may choose to extract \n            parts of them to best answer the user. \n            Below is the relevant file structure, selected README excerpts, and summaries of important files. \n            Using this information, please provide precise answers to the following question, \n            referencing specific files or sections when useful. \n            You are responding directly to the user. Only address the user in your response.\n\n            README.md portion: \x27"
    ++ readme_response ++
    "\x27\n            Comma seperated file structure: \x27"
    ++ file_response ++
    "\x27\n            Summary of file contents: \x27"
    ++ content_response ++
    "\x27\n            User query: \x27"
    ++ query ++
    "\x27\n            "

/-- Source: `ChatRover.retrieve_context`.  The two similarity-search
result lists (`readme_query`, `file_query`) come from the external vector
stores and are parameters; their page contents are strings. -/
def retrieve_context (enc : Encoding) (llm : String → String → String)
    (get_file_raw : String → Option String) (repo : String)
    (readme_query file_query : List String) (query : String) : String :=
  let readme_string := String.intercalate "\n" readme_query
  let file_string := String.intercalate "," file_query
  let readme_response := trim enc readme_string response_token_limit
  let file_response := trim enc file_string response_token_limit
  let content_response := content_summaries enc llm get_file_raw query file_query
  role_prompt_template repo readme_response file_response content_response query

/-- Source: `ChatRover.run_chat` — build the enhanced input, append it as
the user turn (with eviction), issue the streaming completion over the
full retained history (`chat`, accumulated to one string), then append
the accumulated reply as the assistant turn (with eviction). -/
def run_chat (enc : Encoding) (llm : String → String → String)
    (get_file_raw : String → Option String) (chat : List Message → String)
    (repo : String) (readme_query file_query : List String)
    (st : RoverState) (user_input : String) : RoverState :=
  let enhanced_input :=
    retrieve_context enc llm get_file_raw repo readme_query file_query user_input
  let st1 := update_history enc (max_model_tokens : Int) st "user" enhanced_input
  let response := chat st1.history
  update_history enc (max_model_tokens : Int) st1 "assistant" response

/-- Source: `ChatRover.create_file_vector` — the list of `page_content`
strings of the documents handed to `FAISS.from_documents`.  When
`get_file_paths()` is falsy the code rebinds `files` to the *string*
`"Files not found."`; the subsequent comprehension
`[Document(page_content=file) for file in files]` then iterates that
string character by character, one `Document` per character. -/
def create_file_vector_docs (file_paths : List String) : List String :=
  if file_paths.isEmpty then
    "Files not found.".data.map (fun c => String.mk [c])
  else
    file_paths

/-- Concrete character-level tokenizer used to instantiate the abstract
`Encoding` on concrete inputs: each character is one token. -/
def charEnc : Encoding where
  encode s := s.data.map Char.toNat
  decode ts := String.mk (ts.map Char.ofNat)

/-- A message body of 16001 characters: one token over the model budget
under the character tokenizer. -/
def longContent : String := String.mk (List.replicate 16001 'a')

/-! ### Helper lemmas about the eviction loop -/

/-- Token sums are nonnegative. -/
theorem sumTokens_nonneg (enc : Encoding) (h : List Message) :
    0 ≤ sumTokens enc h := by
  induction h with
  | nil => simp [sumTokens]
  | cons m rest ih =>
    simp only [sumTokens]
    exact add_nonneg (Int.ofNat_nonneg _) ih

/-- `sumTokens` is additive over append. -/
theorem sumTokens_append (enc : Encoding) (a b : List Message) :
    sumTokens enc (a ++ b) = sumTokens enc a + sumTokens enc b := by
  induction a with
  | nil => simp [sumTokens]
  | cons m rest ih => simp [sumTokens, ih, add_assoc]

/-- The eviction loop removes exactly a prefix of the message list (the `k`
oldest messages) and subtracts exactly their token counts. -/
theorem enforce_budget_drop (enc : Encoding) (maxTokens : Int)
    (h : List Message) : ∀ t : Int, ∃ k, k ≤ h.length ∧
    enforce_budget enc maxTokens h t =
      (h.drop k, t - sumTokens enc (h.take k)) := by
  induction h with
  | nil =>
    intro t
    exact ⟨0, le_refl 0, by simp [enforce_budget, sumTokens]⟩
  | cons m rest ih =>
    intro t
    by_cases hc : maxTokens < t
    · obtain ⟨k, hk, hEq⟩ := ih (t - (token_count enc m.content : Int))
      refine ⟨k + 1, Nat.succ_le_succ hk, ?_⟩
      simp only [enforce_budget, if_pos hc, hEq, List.drop_succ_cons,
        List.take_succ_cons, sumTokens, Prod.mk.injEq]
      exact ⟨trivial, by ring⟩
    · exact ⟨0, Nat.zero_le _, by simp [enforce_budget, if_neg hc, sumTokens]⟩

/-- When the eviction loop stops, either the budget is respected or the
window has been emptied (the negation of the `while` guard). -/
theorem enforce_budget_post (enc : Encoding) (maxTokens : Int)
    (h : List Message) : ∀ t : Int,
    (enforce_budget enc maxTokens h t).2 ≤ maxTokens ∨
    (enforce_budget enc maxTokens h t).1 = [] := by
  induction h with
  | nil => intro t; right; simp [enforce_budget]
  | cons m rest ih =>
    intro t
    by_cases hc : maxTokens < t
    · simpa only [enforce_budget, if_pos hc] using
        ih (t - (token_count enc m.content : Int))
    · left
      simp only [enforce_budget, if_neg hc]
      exact le_of_not_lt hc

/-- The eviction loop preserves the running-total invariant: if the
incoming total is the sum of the incoming messages, the outgoing total is
the sum of the surviving messages. -/
theorem enforce_budget_sum (enc : Encoding) (maxTokens : Int)
    (h : List Message) (t : Int) (hinv : t = sumTokens enc h) :
    (enforce_budget enc maxTokens h t).2 =
      sumTokens enc (enforce_budget enc maxTokens h t).1 := by
  obtain ⟨k, _, hEq⟩ := enforce_budget_drop enc maxTokens h t
  rw [hEq]
  have hsplit : sumTokens enc h =
      sumTokens enc (h.take k) + sumTokens enc (h.drop k) := by
    rw [← sumTokens_append, List.take_append_drop]
  simp only [hinv, hsplit]
  ring

/-- If the last message alone exceeds the budget and the total is the
true sum, the eviction loop empties the window and zeroes the total. -/
theorem enforce_budget_oversized (enc : Encoding) (maxTokens : Int)
    (m : Message) (hbig : maxTokens < (token_count enc m.content : Int)) :
    ∀ (h : List Message) (t : Int), t = sumTokens enc (h ++ [m]) →
    enforce_budget enc maxTokens (h ++ [m]) t = ([], 0) := by
  intro h
  induction h with
  | nil =>
    intro t hinv
    have ht : t = (token_count enc m.content : Int) := by
      simp [sumTokens] at hinv; omega
    subst ht
    simp [enforce_budget, hbig, sub_self, sumTokens]
  | cons a rest ih =>
    intro t hinv
    have hrest : 0 ≤ sumTokens enc rest := sumTokens_nonneg enc rest
    have hsum : sumTokens enc ((a :: rest) ++ [m]) =
        (token_count enc a.content : Int) + sumTokens enc (rest ++ [m]) := by
      simp [sumTokens]
    have hrm : sumTokens enc (rest ++ [m]) =
        sumTokens enc rest + (token_count enc m.content : Int) := by
      rw [sumTokens_append]; simp [sumTokens]
    have hgt : maxTokens < t := by
      rw [hinv, hsum, hrm]
      have : (0 : Int) ≤ (token_count enc a.content : Int) :=
        Int.ofNat_nonneg _
      omega
    have : enforce_budget enc maxTokens ((a :: rest) ++ [m]) t =
        enforce_budget enc maxTokens (rest ++ [m])
          (t - (token_count enc a.content : Int)) := by
      simp [enforce_budget, if_pos hgt]
    rw [this]
    exact ih _ (by rw [hinv, hsum]; ring)

/-- `update_history` yields a suffix of the old history plus the new
message, with the matching token arithmetic. -/
theorem update_history_drop (enc : Encoding) (maxTokens : Int)
    (st : RoverState) (role content : String) :
    ∃ k, k ≤ (st.history ++ [Message.mk role content]).length ∧
      (update_history enc maxTokens st role content).history =
        (st.history ++ [Message.mk role content]).drop k := by
  obtain ⟨k, hk, hEq⟩ := enforce_budget_drop enc maxTokens
    (st.history ++ [⟨role, content⟩])
    (st.tokens + (token_count enc content : Int))
  exact ⟨k, hk, by simp [update_history, hEq]⟩

/-- `update_history` keeps the running total equal to the recomputed sum. -/
theorem update_history_sum (enc : Encoding) (maxTokens : Int)
    (st : RoverState) (role content : String)
    (hinv : st.tokens = sumTokens enc st.history) :
    (update_history enc maxTokens st role content).tokens =
      sumTokens enc (update_history enc maxTokens st role content).history := by
  have hpre : st.tokens + (token_count enc content : Int) =
      sumTokens enc (st.history ++ [⟨role, content⟩]) := by
    rw [sumTokens_append, hinv]
    simp [sumTokens]
  simpa [update_history] using
    enforce_budget_sum enc maxTokens (st.history ++ [⟨role, content⟩])
      (st.tokens + (token_count enc content : Int)) hpre

/-- After `update_history` the window respects the budget or holds at most
one message (in fact it is then empty). -/
theorem update_history_post (enc : Encoding) (maxTokens : Int)
    (st : RoverState) (role content : String) :
    (update_history enc maxTokens st role content).tokens ≤ maxTokens ∨
    (update_history enc maxTokens st role content).history.length ≤ 1 := by
  rcases enforce_budget_post enc maxTokens (st.history ++ [⟨role, content⟩])
      (st.tokens + (token_count enc content : Int)) with hle | hnil
  · left; simpa [update_history] using hle
  · right; simp [update_history, hnil]

/-- After `update_history` the window respects the budget or is empty. -/
theorem update_history_post_nil (enc : Encoding) (maxTokens : Int)
    (st : RoverState) (role content : String) :
    (update_history enc maxTokens st role content).tokens ≤ maxTokens ∨
    (update_history enc maxTokens st role content).history = [] := by
  rcases enforce_budget_post enc maxTokens (st.history ++ [⟨role, content⟩])
      (st.tokens + (token_count enc content : Int)) with hle | hnil
  · left; simpa [update_history] using hle
  · right; simp [update_history, hnil]

/-- `len(messages)` iterations of fuel suffice for the eviction loop. -/
theorem enforce_budget_fuel_eq (enc : Encoding) (maxTokens : Int) :
    ∀ (h : List Message) (fuel : Nat) (t : Int), h.length ≤ fuel →
    enforce_budget_fuel enc maxTokens fuel h t =
      enforce_budget enc maxTokens h t := by
  intro h
  induction h with
  | nil =>
    intro fuel t _
    cases fuel <;> simp [enforce_budget_fuel, enforce_budget]
  | cons m rest ih =>
    intro fuel t hf
    cases fuel with
    | zero => simp at hf
    | succ f =>
      by_cases hc : maxTokens < t
      · simp only [enforce_budget_fuel, enforce_budget, if_pos hc]
        exact ih f _ (Nat.le_of_succ_le_succ hf)
      · simp only [enforce_budget_fuel, enforce_budget, if_neg hc]

/-- Invariance of the budget-or-degenerate property under a fold of
`update_history` calls. -/
theorem foldl_update_history_post (enc : Encoding) (maxTokens : Int) :
    ∀ (ops : List (String × String)) (st : RoverState),
    (st.tokens ≤ maxTokens ∨ st.history.length ≤ 1) →
    ((ops.foldl (fun s p => update_history enc maxTokens s p.1 p.2) st).tokens
        ≤ maxTokens ∨
      (ops.foldl (fun s p => update_history enc maxTokens s p.1 p.2)
          st).history.length ≤ 1) := by
  intro ops
  induction ops with
  | nil => intro st hst; simpa using hst
  | cons op ops ih =>
    intro st _
    simpa [List.foldl_cons] using
      ih (update_history enc maxTokens st op.1 op.2)
        (update_history_post enc maxTokens st op.1 op.2)

/-! ### Claim theorems -/

/-- Claim C1 (code bug, evaluation at the failing input): building the
file-path index from an empty path list does not yield a single sentinel
document `"Files not found."`; because the code rebinds `files` to a
string and iterates it, it yields sixteen one-character documents. -/
theorem claim_C1_file_vector_empty_eval :
    create_file_vector_docs [] =
      ["F", "i", "l", "e", "s", " ", "n", "o", "t", " ",
        "f", "o", "u", "n", "d", "."] ∧
    (create_file_vector_docs []).length = 16 ∧
    create_file_vector_docs [] ≠ ["Files not found."] ∧
    create_file_vector_docs ["src/main.py"] = ["src/main.py"] := by
  refine ⟨?_, ?_, ?_, ?_⟩ <;> decide

/-- Claim C2: after any sequence of `update_history` (append + eviction)
calls starting from the fresh empty window, the window's token total is
at most the budget or the window holds at most one message. -/
theorem claim_C2_window_invariant (enc : Encoding) (maxTokens : Int)
    (ops : List (String × String)) :
    (ops.foldl (fun s p => update_history enc maxTokens s p.1 p.2)
        ⟨[], 0⟩).tokens ≤ maxTokens ∨
    (ops.foldl (fun s p => update_history enc maxTokens s p.1 p.2)
        ⟨[], 0⟩).history.length ≤ 1 := by
  exact foldl_update_history_post enc maxTokens ops ⟨[], 0⟩
    (Or.inr (by simp))

/-- Claim C3: eviction is strict FIFO — for every window state and budget
the eviction loop removes exactly a prefix (the `k` oldest messages, in
order), and in particular on `[m1, m2, m3]` the surviving window is
always one of `[m1,m2,m3]`, `[m2,m3]`, `[m3]`, `[]` — never a selection
by size or role. -/
theorem claim_C3_fifo_eviction (enc : Encoding) (maxTokens : Int)
    (h : List Message) (t : Int) :
    (∃ k, k ≤ h.length ∧ enforce_budget enc maxTokens h t =
      (h.drop k, t - sumTokens enc (h.take k))) ∧
    (∀ (m1 m2 m3 : Message) (t3 : Int),
      (enforce_budget enc maxTokens [m1, m2, m3] t3).1 = [m1, m2, m3] ∨
      (enforce_budget enc maxTokens [m1, m2, m3] t3).1 = [m2, m3] ∨
      (enforce_budget enc maxTokens [m1, m2, m3] t3).1 = [m3] ∨
      (enforce_budget enc maxTokens [m1, m2, m3] t3).1 = []) := by
  constructor
  · exact enforce_budget_drop enc maxTokens h t
  · intro m1 m2 m3 t3
    obtain ⟨k, hk, hEq⟩ := enforce_budget_drop enc maxTokens [m1, m2, m3] t3
    rw [hEq]
    simp only [List.length_cons, List.length_nil] at hk
    interval_cases k <;> simp

/-- Under the tokenizer's re-encode contract, trimmed text fits the limit. -/
theorem trim_count_le (enc : Encoding)
    (hre : ∀ ts : List Nat, (enc.encode (enc.decode ts)).length ≤ ts.length)
    (T : String) (L : Nat) : token_count enc (trim enc T L) ≤ L := by
  by_cases hlen : L < (enc.encode T).length
  · have hb := hre ((enc.encode T).take L)
    simp only [trim, if_pos hlen, token_count]
    calc (enc.encode (enc.decode ((enc.encode T).take L))).length
        ≤ ((enc.encode T).take L).length := hb
      _ ≤ L := by simp
  · simp only [trim, if_neg hlen, token_count]
    exact le_of_not_lt hlen

/-- Text already within the limit is returned unchanged by `trim`. -/
theorem trim_of_count_le (enc : Encoding) (T : String) (L : Nat)
    (h : token_count enc T ≤ L) : trim enc T L = T := by
  have hnot : ¬ L < (enc.encode T).length := not_lt_of_le h
  simp only [trim]
  rw [if_neg hnot]

/-- Claim C4: for every text and limit, the trimmed text has at most
`limit` tokens (given the tokenizer's encode/decode round-trip contract),
and text already within the limit is returned unchanged. -/
theorem claim_C4_trim_bound (enc : Encoding) (T : String) (L : Nat)
    (hre : ∀ ts : List Nat, (enc.encode (enc.decode ts)).length ≤ ts.length) :
    token_count enc (trim enc T L) ≤ L ∧
    (token_count enc T ≤ L → trim enc T L = T) :=
  ⟨trim_count_le enc hre T L, trim_of_count_le enc T L⟩

/-- Witness for Claim C4 at the concrete character tokenizer and
`T = "hello world"`, `L = 3`. -/
theorem claim_C4_trim_bound_witness :
    (∀ ts : List Nat, (charEnc.encode (charEnc.decode ts)).length ≤ ts.length) ∧
    token_count charEnc (trim charEnc "hello world" 3) ≤ 3 ∧
    (token_count charEnc "hello world" ≤ 3 →
      trim charEnc "hello world" 3 = "hello world") := by
  have hre : ∀ ts : List Nat,
      (charEnc.encode (charEnc.decode ts)).length ≤ ts.length := by
    intro ts; simp [charEnc]
  exact ⟨hre, claim_C4_trim_bound charEnc "hello world" 3 hre⟩

/-- Claim C5: when the raw content of a file path is unavailable from the
repository collaborator (missing or empty), `code_summary` returns the
literal `"Code not found."` and issues zero LLM completion calls. -/
theorem claim_C5_code_not_found (enc : Encoding)
    (llm : String → String → String) (get_file_raw : String → Option String)
    (file_path query : String)
    (hmiss : get_file_raw file_path = none ∨ get_file_raw file_path = some "") :
    code_summary enc llm get_file_raw file_path query = ("Code not found.", 0) := by
  rcases hmiss with hm | hm <;> simp [code_summary, hm]

/-- Witness for Claim C5 at a collaborator that has no file content. -/
theorem claim_C5_code_not_found_witness :
    ((fun _ : String => (none : Option String)) "missing/path.py" = none ∨
      (fun _ : String => (none : Option String)) "missing/path.py" = some "") ∧
    code_summary charEnc (fun _ _ => "summary") (fun _ => none)
      "missing/path.py" "any query" = ("Code not found.", 0) :=
  ⟨Or.inl rfl, claim_C5_code_not_found charEnc (fun _ _ => "summary")
    (fun _ => none) "missing/path.py" "any query" (Or.inl rfl)⟩

/-- Claim C8: the eviction loop terminates — `len(messages)` iterations of
fuel always suffice — and a window holding a single message whose token
count alone exceeds the budget degenerates to the empty window. -/
theorem claim_C8_eviction_terminates (enc : Encoding) (maxTokens : Int)
    (h : List Message) (t : Int) :
    enforce_budget_fuel enc maxTokens h.length h t =
      enforce_budget enc maxTokens h t ∧
    (∀ m : Message, maxTokens < (token_count enc m.content : Int) →
      enforce_budget enc maxTokens [m] (token_count enc m.content : Int) =
        ([], 0)) := by
  constructor
  · exact enforce_budget_fuel_eq enc maxTokens h h.length t (le_refl _)
  · intro m hbig
    have := enforce_budget_oversized enc maxTokens m hbig []
      (token_count enc m.content : Int) (by simp [sumTokens])
    simpa using this

/-- Witness for Claim C8 at the concrete character tokenizer, budget 0 and
a one-character message. -/
theorem claim_C8_eviction_terminates_witness :
    (enforce_budget_fuel charEnc 0
        ([Message.mk "user" "a"] : List Message).length
        [Message.mk "user" "a"] 1 =
      enforce_budget charEnc 0 [Message.mk "user" "a"] 1) ∧
    ((0 : Int) < (token_count charEnc (Message.mk "user" "a").content : Int) ∧
      enforce_budget charEnc 0 [Message.mk "user" "a"]
        (token_count charEnc (Message.mk "user" "a").content : Int) =
        ([], 0)) := by
  have h := claim_C8_eviction_terminates charEnc 0 [Message.mk "user" "a"] 1
  exact ⟨h.1, by decide, h.2 (Message.mk "user" "a") (by decide)⟩

/-- Claim C9: `update_history` keeps the incrementally maintained
`conversation_tokens` equal to the sum of the per-message token counts of
the messages currently in `conversation_history`. -/
theorem claim_C9_token_total_agrees (enc : Encoding) (maxTokens : Int)
    (st : RoverState) (role content : String)
    (hinv : st.tokens = sumTokens enc st.history) :
    (update_history enc maxTokens st role content).tokens =
      sumTokens enc (update_history enc maxTokens st role content).history :=
  update_history_sum enc maxTokens st role content hinv

/-- Witness for Claim C9 at the fresh empty window. -/
theorem claim_C9_token_total_agrees_witness :
    ((⟨[], 0⟩ : RoverState).tokens = sumTokens charEnc (⟨[], 0⟩ : RoverState).history) ∧
    (update_history charEnc 16000 ⟨[], 0⟩ "user" "hello").tokens =
      sumTokens charEnc
        (update_history charEnc 16000 ⟨[], 0⟩ "user" "hello").history :=
  ⟨rfl, claim_C9_token_total_agrees charEnc 16000 ⟨[], 0⟩ "user" "hello" rfl⟩

/-- Claim C10: appending a message whose token count exceeds
`max_model_tokens` empties the history and zeroes the token total — the
eviction loop removes every message including the one just appended. -/
theorem claim_C10_oversized_message_clears (enc : Encoding) (st : RoverState)
    (role content : String)
    (hinv : st.tokens = sumTokens enc st.history)
    (hbig : (max_model_tokens : Int) < (token_count enc content : Int)) :
    (update_history enc (max_model_tokens : Int) st role content).history = [] ∧
    (update_history enc (max_model_tokens : Int) st role content).tokens = 0 := by
  have hpre : st.tokens + (token_count enc content : Int) =
      sumTokens enc (st.history ++ [Message.mk role content]) := by
    rw [sumTokens_append, hinv]; simp [sumTokens]
  have h := enforce_budget_oversized enc (max_model_tokens : Int)
    (Message.mk role content) hbig st.history
    (st.tokens + (token_count enc content : Int)) hpre
  constructor <;> simp [update_history, h]

/-- Witness for Claim C10 at the empty window and a 16001-token message. -/
theorem claim_C10_oversized_message_clears_witness :
    ((⟨[], 0⟩ : RoverState).tokens = sumTokens charEnc (⟨[], 0⟩ : RoverState).history) ∧
    ((max_model_tokens : Int) < (token_count charEnc longContent : Int)) ∧
    (update_history charEnc (max_model_tokens : Int) ⟨[], 0⟩ "user"
        longContent).history = [] ∧
    (update_history charEnc (max_model_tokens : Int) ⟨[], 0⟩ "user"
        longContent).tokens = 0 := by
  have hcount : token_count charEnc longContent = 16001 := by
    show ((String.mk (List.replicate 16001 'a')).data.map Char.toNat).length = 16001
    rw [List.length_map]
    show (List.replicate 16001 'a').length = 16001
    rw [List.length_replicate]
  have hbig : (max_model_tokens : Int) < (token_count charEnc longContent : Int) := by
    rw [hcount]; norm_num [max_model_tokens]
  have h := claim_C10_oversized_message_clears charEnc ⟨[], 0⟩ "user"
    longContent rfl hbig
  exact ⟨rfl, hbig, h.1, h.2⟩

/-- Claim C6: `retrieve_context` truncates the concatenated README hits
and the concatenated file-path hits independently, each to the same fixed
budget `response_token_limit = max_model_tokens / 3`, before composing the
prompt from the truncated strings. -/
theorem claim_C6_independent_truncation (enc : Encoding)
    (llm : String → String → String) (get_file_raw : String → Option String)
    (repo : String) (readme_query file_query : List String) (query : String)
    (hre : ∀ ts : List Nat, (enc.encode (enc.decode ts)).length ≤ ts.length) :
    response_token_limit = max_model_tokens / 3 ∧
    token_count enc (trim enc (String.intercalate "\n" readme_query)
      response_token_limit) ≤ max_model_tokens / 3 ∧
    token_count enc (trim enc (String.intercalate "," file_query)
      response_token_limit) ≤ max_model_tokens / 3 ∧
    retrieve_context enc llm get_file_raw repo readme_query file_query query =
      role_prompt_template repo
        (trim enc (String.intercalate "\n" readme_query) response_token_limit)
        (trim enc (String.intercalate "," file_query) response_token_limit)
        (content_summaries enc llm get_file_raw query file_query) query := by
  refine ⟨rfl, ?_, ?_, rfl⟩
  · exact trim_count_le enc hre (String.intercalate "\n" readme_query)
      response_token_limit
  · exact trim_count_le enc hre (String.intercalate "," file_query)
      response_token_limit

/-- Witness for Claim C6 at the concrete character tokenizer and a
one-hit retrieval result on each index. -/
theorem claim_C6_independent_truncation_witness :
    (∀ ts : List Nat, (charEnc.encode (charEnc.decode ts)).length ≤ ts.length) ∧
    (response_token_limit = max_model_tokens / 3 ∧
      token_count charEnc (trim charEnc (String.intercalate "\n" ["alpha"])
        response_token_limit) ≤ max_model_tokens / 3 ∧
      token_count charEnc (trim charEnc (String.intercalate "," ["a.py"])
        response_token_limit) ≤ max_model_tokens / 3 ∧
      retrieve_context charEnc (fun _ _ => "summary") (fun _ => none) "repo"
          ["alpha"] ["a.py"] "query" =
        role_prompt_template "repo"
          (trim charEnc (String.intercalate "\n" ["alpha"]) response_token_limit)
          (trim charEnc (String.intercalate "," ["a.py"]) response_token_limit)
          (content_summaries charEnc (fun _ _ => "summary") (fun _ => none)
            "query" ["a.py"]) "query") := by
  have hre : ∀ ts : List Nat,
      (charEnc.encode (charEnc.decode ts)).length ≤ ts.length := by
    intro ts; simp [charEnc]
  exact ⟨hre, claim_C6_independent_truncation charEnc (fun _ _ => "summary")
    (fun _ => none) "repo" ["alpha"] ["a.py"] "query" hre⟩

/-- Claim C7: starting from a 1-message window whose token total is the
true sum, one `run_chat` turn appends exactly the enhanced user prompt
(role `"user"`) and then the accumulated streamed reply (role
`"assistant"`) — the final window is a suffix of the old window plus those
two messages, in that order — and after both appends plus their eviction
passes the token total is at most `max_model_tokens`. -/
theorem claim_C7_turn_round_trip (enc : Encoding)
    (llm : String → String → String) (get_file_raw : String → Option String)
    (chat : List Message → String) (repo : String)
    (readme_query file_query : List String) (st : RoverState)
    (user_input : String) (hlen : st.history.length = 1)
    (hinv : st.tokens = sumTokens enc st.history) :
    (∃ k, (run_chat enc llm get_file_raw chat repo readme_query file_query
        st user_input).history =
      (st.history ++
        [Message.mk "user" (retrieve_context enc llm get_file_raw repo
            readme_query file_query user_input),
          Message.mk "assistant" (chat (update_history enc
            (max_model_tokens : Int) st "user"
            (retrieve_context enc llm get_file_raw repo readme_query
              file_query user_input)).history)]).drop k) ∧
    (run_chat enc llm get_file_raw chat repo readme_query file_query
        st user_input).tokens ≤ (max_model_tokens : Int) := by
  set enhanced := retrieve_context enc llm get_file_raw repo readme_query
    file_query user_input with hE
  set st1 := update_history enc (max_model_tokens : Int) st "user" enhanced
    with hst1
  set resp := chat st1.history with hresp
  have hrun : run_chat enc llm get_file_raw chat repo readme_query file_query
      st user_input =
      update_history enc (max_model_tokens : Int) st1 "assistant" resp := rfl
  obtain ⟨k1, hk1, h1⟩ :=
    update_history_drop enc (max_model_tokens : Int) st "user" enhanced
  obtain ⟨k2, hk2, h2⟩ :=
    update_history_drop enc (max_model_tokens : Int) st1 "assistant" resp
  have hinv1 : st1.tokens = sumTokens enc st1.history :=
    update_history_sum enc (max_model_tokens : Int) st "user" enhanced hinv
  constructor
  · refine ⟨k1 + k2, ?_⟩
    rw [hrun, h2, h1, ← List.drop_append_of_le_length hk1, List.drop_drop,
      List.append_assoc]
    simp
  · rcases update_history_post_nil enc (max_model_tokens : Int) st1
        "assistant" resp with hle | hnil
    · rw [hrun]; exact hle
    · have hinv2 := update_history_sum enc (max_model_tokens : Int) st1
        "assistant" resp hinv1
      rw [hrun, hinv2, hnil]
      simp [sumTokens]

/-- Witness for Claim C7 at the concrete character tokenizer and a window
holding one short user message. -/
theorem claim_C7_turn_round_trip_witness :
    ((⟨[Message.mk "user" "hi"], 2⟩ : RoverState).history.length = 1) ∧
    ((⟨[Message.mk "user" "hi"], 2⟩ : RoverState).tokens =
      sumTokens charEnc (⟨[Message.mk "user" "hi"], 2⟩ : RoverState).history) ∧
    ((∃ k, (run_chat charEnc (fun _ _ => "summary") (fun _ => none)
        (fun _ => "reply") "repo" ["alpha"] ["a.py"]
        ⟨[Message.mk "user" "hi"], 2⟩ "query").history =
      ((⟨[Message.mk "user" "hi"], 2⟩ : RoverState).history ++
        [Message.mk "user" (retrieve_context charEnc (fun _ _ => "summary")
            (fun _ => none) "repo" ["alpha"] ["a.py"] "query"),
          Message.mk "assistant" ((fun _ : List Message => "reply")
            (update_history charEnc (max_model_tokens : Int)
              ⟨[Message.mk "user" "hi"], 2⟩ "user"
              (retrieve_context charEnc (fun _ _ => "summary") (fun _ => none)
                "repo" ["alpha"] ["a.py"] "query")).history)]).drop k) ∧
    (run_chat charEnc (fun _ _ => "summary") (fun _ => none)
        (fun _ => "reply") "repo" ["alpha"] ["a.py"]
        ⟨[Message.mk "user" "hi"], 2⟩ "query").tokens ≤
      (max_model_tokens : Int)) := by
  refine ⟨rfl, by simp [sumTokens, token_count, charEnc], ?_⟩
  exact claim_C7_turn_round_trip charEnc (fun _ _ => "summary") (fun _ => none)
    (fun _ => "reply") "repo" ["alpha"] ["a.py"]
    ⟨[Message.mk "user" "hi"], 2⟩ "query" rfl
    (by simp [sumTokens, token_count, charEnc])
